import Mathlib

/-!
Verification of the nav content-rewriting proxy (`src/main.go`) against its
natural-language specification.  The Go string primitives, the URL resolver,
the per-element rewrite transforms, the minifier fallback and the
request-accounting subsystem are shallowly embedded below; strings are the
Lean `String` type viewed through its `List Char` data.
-/

/-- Core of Go `strings.HasPrefix`, on character lists: `startsWithL pre s`
decides whether `pre` is a leading segment of `s`. -/
def startsWithL : List Char → List Char → Bool
  | [], _ => true
  | _ :: _, [] => false
  | p :: ps, c :: cs => p == c && startsWithL ps cs

/-- Go `strings.HasPrefix(s, pre)`. -/
def goStartsWith (s pre : String) : Bool := startsWithL pre.data s.data

/-- Go `strings.HasSuffix(s, suf)`, via the reversed character lists. -/
def goEndsWith (s suf : String) : Bool := startsWithL suf.data.reverse s.data.reverse

/-- Go `strings.TrimPrefix(s, pre)`: removes at most one leading occurrence
of `pre` (it does not loop). -/
def goTrimLeading (s pre : String) : String :=
  if goStartsWith s pre then ⟨s.data.drop pre.data.length⟩ else s

/-- Go `strings.TrimSuffix(s, suf)`: removes at most one trailing occurrence
of `suf` (it does not loop). -/
def goTrimTrailing (s suf : String) : String :=
  if goEndsWith s suf then ⟨(s.data.reverse.drop suf.data.length).reverse⟩ else s

/-- Core of Go `strings.Contains`: `containsSubL sub s` scans `s` left to
right looking for an occurrence of `sub`. -/
def containsSubL (sub : List Char) : List Char → Bool
  | [] => sub.isEmpty
  | c :: rest => startsWithL sub (c :: rest) || containsSubL sub rest

/-- Go `strings.Contains(s, sub)`. -/
def strContains (s sub : String) : Bool := containsSubL sub.data s.data

/-- Fuel-indexed core of Go `strings.Split` (non-empty separator): scan the
input, emitting the accumulated segment each time the separator is found.
Fuel `s.length + 1` always suffices since every step consumes at least one
character of the input. -/
def splitOnFuel (sep : List Char) : Nat → List Char → List Char → List (List Char)
  | 0, s, acc => [acc ++ s]
  | fuel + 1, s, acc =>
    match s with
    | [] => [acc]
    | c :: rest =>
      if !sep.isEmpty && startsWithL sep (c :: rest) then
        acc :: splitOnFuel sep fuel ((c :: rest).drop sep.length) []
      else splitOnFuel sep fuel rest (acc ++ [c])

/-- Go `strings.Split(s, sep)` for the non-empty separators used in
`main.go`. -/
def goSplit (s sep : String) : List String :=
  (splitOnFuel sep.data (s.data.length + 1) s.data []).map (fun l => ⟨l⟩)

/-- `ResourceProcessor.makeAbsoluteURL` (main.go lines 196-201): refs that
already start with `http://` or `https://` are returned unchanged; otherwise
the base (one trailing slash trimmed) and the ref (one leading slash trimmed)
are joined by `fmt.Sprintf("%s/%s", ..)`. -/
def makeAbsoluteURL (baseURL resourceURL : String) : String :=
  if goStartsWith resourceURL "http://" || goStartsWith resourceURL "https://" then
    resourceURL
  else
    goTrimTrailing baseURL "/" ++ "/" ++ goTrimLeading resourceURL "/"

/-- The form rewrite loop body (main.go lines 424-433): an action not
starting with `"http"` is resolved against the base and wrapped in
`/?url=`; any other action is wrapped verbatim. -/
def rewriteFormAction (baseURL action : String) : String :=
  if !goStartsWith action "http" then
    "/?url=" ++ makeAbsoluteURL baseURL action
  else
    "/?url=" ++ action

/-- The anchor rewrite loop body (main.go lines 436-450): `javascript:` and
`#` hrefs are returned untouched; otherwise the href is classified exactly
as a form action. -/
def rewriteAnchorHref (baseURL href : String) : String :=
  if goStartsWith href "javascript:" || goStartsWith href "#" then href
  else if !goStartsWith href "http" then
    "/?url=" ++ makeAbsoluteURL baseURL href
  else
    "/?url=" ++ href

/-- `extractVideoID` (main.go lines 242-249).  The Go indexing
`strings.Split(url, "watch?v=")[1]` is guarded by the `Contains` check, so
the index is always in range; `getD` supplies the same defined value. -/
def extractVideoID (url : String) : String :=
  if strContains url "youtube.com/watch?v=" then
    (goSplit ((goSplit url "watch?v=").getD 1 "") "&").getD 0 ""
  else if strContains url "youtu.be/" then
    (goSplit url "youtu.be/").getD 1 ""
  else ""

/-- Outcome of the target-URL dispatch in the `GET /` handler. -/
inductive PageResponse where
  | videoEmbed (videoID : String)
  | genericRewrite
deriving DecidableEq

/-- The YouTube special-case branch of the `GET /` handler (main.go lines
346-363): a URL mentioning the video domain with an extractable id is
answered with the fixed embed fragment; everything else falls through to
the generic fetch/rewrite path. -/
def handleTarget (url : String) : PageResponse :=
  if strContains url "youtube.com" || strContains url "youtu.be" then
    if extractVideoID url ≠ "" then PageResponse.videoEmbed (extractVideoID url)
    else PageResponse.genericRewrite
  else PageResponse.genericRewrite

/-- A `<script>` element, as far as `processJS` observes and mutates it:
its optional `src` attribute and its text content. -/
structure ScriptEl where
  src : Option String
  text : String
deriving DecidableEq

/-- The `script[src]` loop body of `ResourceProcessor.processJS` (main.go
lines 137-153), parametric in the outcome of `fetchAndMinifyJS`: a src
containing `"youtube.com"` is rewritten to absolute and left external;
otherwise a successful fetch removes `src` and inlines the minified body,
and a failed fetch leaves the element unchanged. -/
def processScriptSrcEl (baseURL : String) (fetchMinifyJS : String → Except String String)
    (el : ScriptEl) : ScriptEl :=
  match el.src with
  | none => el
  | some src =>
    if strContains src "youtube.com" then
      { el with src := some (makeAbsoluteURL baseURL src) }
    else
      match fetchMinifyJS (makeAbsoluteURL baseURL src) with
      | Except.ok js => { el with src := none, text := js }
      | Except.error _ => el

/-- The `script:not([src])` loop body of `ResourceProcessor.processJS`
(main.go lines 156-167), parametric in the minifier: text containing
`"youtube.com"` or `"YT.Player"` is skipped; otherwise a successful
minification replaces the text and a failure leaves it unchanged. -/
def processInlineScriptEl (minifyJS : String → Except String String)
    (el : ScriptEl) : ScriptEl :=
  match el.src with
  | some _ => el
  | none =>
    if strContains el.text "youtube.com" || strContains el.text "YT.Player" then el
    else
      match minifyJS el.text with
      | Except.ok minified => { el with text := minified }
      | Except.error _ => el

/-- An `<iframe>` element, as far as `processIframes` observes and mutates
it: its `src`, `allowfullscreen` and `allow` attributes. -/
structure IframeEl where
  src : String
  allowfullscreen : Option String
  allow : Option String
deriving DecidableEq

/-- The fixed `allow` feature-policy string set on video-host iframes
(main.go line 188). -/
def allowFixed : String :=
  "accelerometer; autoplay; clipboard-write; encrypted-media; gyroscope; picture-in-picture"

/-- The loop body of `ResourceProcessor.processIframes` (main.go lines
181-194): a src containing `"youtube.com"` or `"youtu.be"` is kept as-is and
the two fixed attributes are forced; any other src is made absolute with no
attribute changes. -/
def processIframeEl (baseURL : String) (el : IframeEl) : IframeEl :=
  if strContains el.src "youtube.com" || strContains el.src "youtu.be" then
    { el with src := el.src, allowfullscreen := some "true", allow := some allowFixed }
  else
    { el with src := makeAbsoluteURL baseURL el.src }

/-- The minification step shared by `fetchAndMinifyCSS` (main.go lines
215-219) and `fetchAndMinifyJS` (lines 234-238), parametric in the
content-type-keyed minifier: a failed minification returns the original
content with a nil error. -/
def minifyBestEffort (minifier : String → Except String String)
    (content : String) : Except String String :=
  match minifier content with
  | Except.ok minified => Except.ok minified
  | Except.error _ => Except.ok content

/-- `fetchAndMinifyCSS`/`fetchAndMinifyJS` (main.go lines 203-239),
parametric in the network fetch and the minifier: a fetch failure is
propagated, a fetched body goes through `minifyBestEffort`. -/
def fetchAndMinifyModel (fetchBody minifier : String → Except String String)
    (url : String) : Except String String :=
  match fetchBody url with
  | Except.error e => Except.error e
  | Except.ok content => minifyBestEffort minifier content

/-- A `RequestLogEntry` (main.go lines 33-39); time values are modelled as
integers. -/
structure RequestLogEntry where
  timestamp : Int
  url : String
  duration : Int
  status : Int
  size : Int
deriving DecidableEq

/-- The mutable fields of `DebugStats` (main.go lines 24-31) that
`logRequest` and the stats endpoint touch. -/
structure DebugStats where
  enabled : Bool
  requestCount : Int
  bytesProcessed : Int
  requestLog : List RequestLogEntry
deriving DecidableEq

/-- The package-level `stats` value before flag parsing (main.go lines
41-44): disabled, zero counters, empty log. -/
def initStats : DebugStats :=
  { enabled := false, requestCount := 0, bytesProcessed := 0, requestLog := [] }

/-- `initStats` with accounting switched on, as `main` does when a debug
flag is set (main.go line 289). -/
def enabledStats : DebugStats := { initStats with enabled := true }

/-- `DebugStats.logRequest` (main.go lines 46-59).  The returned boolean
records whether `ds.Lock()` was executed: the disabled path returns before
the lock is taken. -/
def logRequest (ds : DebugStats) (entry : RequestLogEntry) : DebugStats × Bool :=
  if !ds.enabled then (ds, false)
  else
    ({ ds with
        requestCount := ds.requestCount + 1,
        bytesProcessed := ds.bytesProcessed + entry.size,
        requestLog := ds.requestLog ++ [entry] }, true)

/-- Folding `logRequest` over a sequence of entries, as the debug
middleware does once per inbound request. -/
def recordAll (ds : DebugStats) (entries : List RequestLogEntry) : DebugStats :=
  entries.foldl (fun s e => (logRequest s e).1) ds

/-- The Go `max` helper (main.go lines 510-515). -/
def goMax (a b : Int) : Int := if a > b then a else b

/-- The `lastRequests` slice of the `/debug/stats` handler (main.go line
499): `stats.RequestLog[max(0, len(stats.RequestLog)-10):]`. -/
def lastRequests (ds : DebugStats) : List RequestLogEntry :=
  ds.requestLog.drop (goMax 0 ((ds.requestLog.length : Int) - 10)).toNat

/-- A sample log entry used by concrete witnesses. -/
def sampleEntry (n : Int) : RequestLogEntry :=
  { timestamp := n, url := "http://t.example/p", duration := n + 1, status := 200, size := 2 * n + 1 }

/-- A sample three-entry log used by concrete witnesses. -/
def sampleEntries : List RequestLogEntry := [sampleEntry 0, sampleEntry 1, sampleEntry 2]

/-- Outcome of the frame-ability probe: a response carrying the optional
framing-control header value, or a transport failure. -/
inductive ProbeResult where
  | response (xFrameOptions : Option String)
  | networkFailure (msg : String)
deriving DecidableEq

/-- ASCII lower-casing of one character, for the case-insensitive header
comparison. -/
def asciiLower (c : Char) : Char :=
  if 'A' ≤ c ∧ c ≤ 'Z' then Char.ofNat (c.toNat + 32) else c

/-- ASCII lower-casing of a string. -/
def strLower (s : String) : String := ⟨s.data.map asciiLower⟩

/-- Modelled from the spec: the Frame-ability Oracle `canEmbed` of §4.3.
No such function exists under `src/` — `main.go` implements Strategy B
(always fetch, headers spoofed) and never probes frame-ability — so the
oracle is taken from the spec's words: header values `deny` or `sameorigin`
(case-insensitive) yield `false`, any other value or an absent header
yields `true`, and a network failure is propagated as an error. -/
def canEmbed (probe : ProbeResult) : Except String Bool :=
  match probe with
  | ProbeResult.networkFailure msg => Except.error msg
  | ProbeResult.response none => Except.ok true
  | ProbeResult.response (some v) =>
      Except.ok (!(strLower v == "deny" || strLower v == "sameorigin"))

/-- Formalization of the claims' wording, used only to state C2 as written:
join `base` stripped of ALL trailing slashes and `ref` stripped of ALL
leading slashes with a single separating slash ("exactly one separating
slash ... regardless of how many leading or trailing slashes the inputs
carry"). -/
def specOneSlashJoin (base ref : String) : String :=
  ⟨(base.data.reverse.dropWhile (fun c => c == '/')).reverse ++
    '/' :: ref.data.dropWhile (fun c => c == '/')⟩

/-- Formalization of the claims' notion of the "source host" of a URL, used
only to state C3 and C6 as written: the authority component between the
scheme and the first path slash. -/
def hostOf (url : String) : String :=
  if goStartsWith url "http://" then ⟨(url.data.drop 7).takeWhile (fun c => !(c == '/'))⟩
  else if goStartsWith url "https://" then ⟨(url.data.drop 8).takeWhile (fun c => !(c == '/'))⟩
  else ⟨url.data.takeWhile (fun c => !(c == '/'))⟩

/-- Formalization of the claims' "allow-listed third-party domain" (the
video-embed host, its short-link host, and their subdomains), used only to
state C3 and C6 as written. -/
def allowHost (h : String) : Bool :=
  h == "youtube.com" || h == "youtu.be" ||
    goEndsWith h ".youtube.com" || goEndsWith h ".youtu.be"

/-- Two strings with the same character data are equal. -/
theorem string_eq_of_data {s t : String} (h : s.data = t.data) : s = t := by
  cases s
  cases t
  exact congrArg String.mk h

/-- Appending strings appends their character data. -/
theorem data_append (s t : String) : (s ++ t).data = s.data ++ t.data := rfl

/-- A list is a starting segment of itself followed by anything. -/
theorem startsWithL_self_append (a b : List Char) : startsWithL a (a ++ b) = true := by
  induction a with
  | nil => rfl
  | cons p ps ih => simp [startsWithL, ih]

/-- A starting segment of `l` can be shortened on the right. -/
theorem startsWithL_weaken (a b l : List Char) (h : startsWithL (a ++ b) l = true) :
    startsWithL a l = true := by
  induction a generalizing l with
  | nil => rfl
  | cons p ps ih =>
    cases l with
    | nil => simp [startsWithL] at h
    | cons c cs =>
      simp only [List.cons_append, startsWithL, Bool.and_eq_true, beq_iff_eq] at h ⊢
      exact ⟨h.1, ih cs h.2⟩

/-- A nonempty starting segment determines the head of the list. -/
theorem startsWithL_head (p : Char) (ps l : List Char) (h : startsWithL (p :: ps) l = true) :
    l.head? = some p := by
  cases l with
  | nil => simp [startsWithL] at h
  | cons c cs =>
    simp only [startsWithL, Bool.and_eq_true, beq_iff_eq] at h
    simp [h.1]

/-- Two required leading characters that differ cannot both start a string. -/
theorem goStartsWith_ne_head (s pre1 pre2 : String) {c1 c2 : Char} {t1 t2 : List Char}
    (e1 : pre1.data = c1 :: t1) (e2 : pre2.data = c2 :: t2) (hne : c1 ≠ c2)
    (h : goStartsWith s pre1 = true) : goStartsWith s pre2 = false := by
  unfold goStartsWith at h ⊢
  rw [e1] at h
  rw [e2]
  cases hb : startsWithL (c2 :: t2) s.data with
  | false => rfl
  | true =>
    have h1 := startsWithL_head c1 t1 s.data h
    have h2 := startsWithL_head c2 t2 s.data hb
    rw [h1] at h2
    exact absurd (Option.some.inj h2) hne

/-- A string starting with an extended pattern starts with the shorter one. -/
theorem goStartsWith_weaken (s pre1 pre2 : String) (ext : List Char)
    (e : pre1.data = pre2.data ++ ext) (h : goStartsWith s pre1 = true) :
    goStartsWith s pre2 = true := by
  unfold goStartsWith at h ⊢
  rw [e] at h
  exact startsWithL_weaken _ _ _ h

/-- If a character list does not start with a slash, dropping leading
slashes is the identity. -/
theorem dropWhile_slash_eq_self (l : List Char) (h : startsWithL ['/'] l = false) :
    l.dropWhile (fun c => c == '/') = l := by
  cases l with
  | nil => rfl
  | cons c cs =>
    have hc : (c == '/') = false := by
      cases hb : (c == '/') with
      | false => rfl
      | true =>
        have hcc : c = '/' := by simpa using hb
        subst hcc
        simp [startsWithL] at h
    simp [List.dropWhile_cons, hc]

/-- Removing one leading slash removes all of them, provided the result no
longer starts with a slash. -/
theorem dropOneAll (l : List Char)
    (h : startsWithL ['/'] (if startsWithL ['/'] l then l.drop 1 else l) = false) :
    (if startsWithL ['/'] l then l.drop 1 else l) = l.dropWhile (fun c => c == '/') := by
  cases hl : startsWithL ['/'] l with
  | false =>
    simp only [hl, Bool.false_eq_true, if_false] at h ⊢
    exact (dropWhile_slash_eq_self l hl).symm
  | true =>
    simp only [hl, if_true] at h ⊢
    cases l with
    | nil => simp [startsWithL] at hl
    | cons c cs =>
      simp only [startsWithL, Bool.and_eq_true, beq_iff_eq] at hl
      have hcc : c = '/' := hl.1.symm
      subst hcc
      simp only [List.drop_succ_cons, List.drop_zero] at h ⊢
      rw [List.dropWhile_cons]
      simp only [beq_self_eq_true, if_true]
      exact (dropWhile_slash_eq_self cs h).symm

/-- Character-level description of `goTrimLeading s "/"`. -/
theorem trimLeading_slash_data (s : String) :
    (goTrimLeading s "/").data = if startsWithL ['/'] s.data then s.data.drop 1 else s.data := by
  unfold goTrimLeading goStartsWith
  have hd : ("/" : String).data = ['/'] := rfl
  simp only [hd]
  split <;> rfl

/-- Character-level description of `goTrimTrailing s "/"`. -/
theorem trimTrailing_slash_data (s : String) :
    (goTrimTrailing s "/").data =
      (if startsWithL ['/'] s.data.reverse then s.data.reverse.drop 1 else s.data.reverse).reverse := by
  unfold goTrimTrailing goEndsWith
  have hd : ("/" : String).data = ['/'] := rfl
  simp only [hd, List.reverse_singleton]
  split
  · rfl
  · simp

/-- When the trimmed ref no longer starts with a slash, `goTrimLeading`
agrees with stripping all leading slashes. -/
theorem trimLeadingAll (s : String)
    (h : goStartsWith (goTrimLeading s "/") "/" = false) :
    (goTrimLeading s "/").data = s.data.dropWhile (fun c => c == '/') := by
  have h' : startsWithL ['/']
      (if startsWithL ['/'] s.data then s.data.drop 1 else s.data) = false := by
    rw [← trimLeading_slash_data s]
    exact h
  rw [trimLeading_slash_data s]
  exact dropOneAll s.data h'

/-- When the trimmed base no longer ends with a slash, `goTrimTrailing`
agrees with stripping all trailing slashes. -/
theorem trimTrailingAll (s : String)
    (h : goEndsWith (goTrimTrailing s "/") "/" = false) :
    (goTrimTrailing s "/").data = (s.data.reverse.dropWhile (fun c => c == '/')).reverse := by
  have h2 : startsWithL ['/'] ((goTrimTrailing s "/").data.reverse) = false := h
  rw [trimTrailing_slash_data s] at h2
  have h' : startsWithL ['/']
      (if startsWithL ['/'] s.data.reverse then s.data.reverse.drop 1 else s.data.reverse) = false := by
    simpa [List.reverse_reverse] using h2
  rw [trimTrailing_slash_data s, dropOneAll s.data.reverse h']

/-- Folding `logRequest` over an enabled stats value adds one count, one
size and one log entry per recorded entry. -/
theorem recordAll_spec (entries : List RequestLogEntry) (ds : DebugStats)
    (h : ds.enabled = true) :
    recordAll ds entries =
      { enabled := true,
        requestCount := ds.requestCount + entries.length,
        bytesProcessed := ds.bytesProcessed + (entries.map (fun e => e.size)).sum,
        requestLog := ds.requestLog ++ entries } := by
  induction entries generalizing ds with
  | nil =>
    cases ds with
    | mk en rc bp rl =>
      simp only [DebugStats.enabled] at h
      subst h
      simp [recordAll]
  | cons e rest ih =>
    have hstep : (logRequest ds e).1 =
        { enabled := ds.enabled,
          requestCount := ds.requestCount + 1,
          bytesProcessed := ds.bytesProcessed + e.size,
          requestLog := ds.requestLog ++ [e] } := by
      unfold logRequest
      simp [h]
    have hrec : recordAll ds (e :: rest) = recordAll (logRequest ds e).1 rest := rfl
    rw [hrec, hstep, ih _ (by simp [h])]
    simp only [DebugStats.mk.injEq, List.map_cons, List.sum_cons, List.append_assoc,
      List.singleton_append, List.length_cons]
    refine ⟨trivial, by push_cast; ring, by ring, trivial⟩

/-- Evaluating the Go slice index `max(0, n-10)` as a natural number. -/
theorem goMax_toNat (n : Nat) : (goMax 0 ((n : Int) - 10)).toNat = n - 10 := by
  unfold goMax
  split <;> omega

/-- Claim C1: for every anchor href, a `javascript:` or `#` href is left
byte-identical by the anchor rewrite; a root-relative href is rewritten to
`/?url=` followed by the resolver's absolutization against the base URL;
an absolute `http://` or `https://` href is rewritten to `/?url=` followed
by the unchanged original href. -/
theorem c1_anchor_rewrite (baseURL href : String) :
    ((goStartsWith href "javascript:" = true ∨ goStartsWith href "#" = true) →
        rewriteAnchorHref baseURL href = href)
    ∧ (goStartsWith href "/" = true →
        rewriteAnchorHref baseURL href = "/?url=" ++ makeAbsoluteURL baseURL href)
    ∧ ((goStartsWith href "http://" = true ∨ goStartsWith href "https://" = true) →
        rewriteAnchorHref baseURL href = "/?url=" ++ href) := by
  refine ⟨?_, ?_, ?_⟩
  · intro h
    unfold rewriteAnchorHref
    rcases h with h | h <;> simp [h]
  · intro h
    have hj : goStartsWith href "javascript:" = false :=
      goStartsWith_ne_head href "/" "javascript:" rfl rfl (by decide) h
    have hh : goStartsWith href "#" = false :=
      goStartsWith_ne_head href "/" "#" rfl rfl (by decide) h
    have hp : goStartsWith href "http" = false :=
      goStartsWith_ne_head href "/" "http" rfl rfl (by decide) h
    unfold rewriteAnchorHref
    simp [hj, hh, hp]
  · intro h
    have hp : goStartsWith href "http" = true := by
      rcases h with h | h
      · exact goStartsWith_weaken href "http://" "http" "://".data rfl h
      · exact goStartsWith_weaken href "https://" "http" "s://".data rfl h
    have hj : goStartsWith href "javascript:" = false :=
      goStartsWith_ne_head href "http" "javascript:" rfl rfl (by decide) hp
    have hh : goStartsWith href "#" = false :=
      goStartsWith_ne_head href "http" "#" rfl rfl (by decide) hp
    unfold rewriteAnchorHref
    simp [hj, hh, hp]

/-- Witness for C1 at concrete hrefs of the three classes. -/
theorem c1_anchor_rewrite_witness :
    rewriteAnchorHref "http://b.example" "#frag" = "#frag"
    ∧ rewriteAnchorHref "http://b.example" "/path" =
        "/?url=" ++ makeAbsoluteURL "http://b.example" "/path"
    ∧ rewriteAnchorHref "http://b.example" "http://x/y" = "/?url=" ++ "http://x/y" :=
  ⟨(c1_anchor_rewrite "http://b.example" "#frag").1 (Or.inr (by decide)),
   (c1_anchor_rewrite "http://b.example" "/path").2.1 (by decide),
   (c1_anchor_rewrite "http://b.example" "http://x/y").2.2 (Or.inl (by decide))⟩

/-- Claim C10: classification as an absolute URL tests only the prefix
`"http"`, so every href or action beginning with `"http"` — including
`"httpfoo/bar"` — is wrapped as `/?url=` plus the verbatim value without
being resolved against the base, and only values not beginning with
`"http"` are resolved to absolute before wrapping. -/
theorem c10_http_classification (baseURL v : String) :
    (goStartsWith v "http" = true →
        rewriteFormAction baseURL v = "/?url=" ++ v
        ∧ rewriteAnchorHref baseURL v = "/?url=" ++ v)
    ∧ (goStartsWith v "http" = false →
        rewriteFormAction baseURL v = "/?url=" ++ makeAbsoluteURL baseURL v)
    ∧ rewriteFormAction "http://base.example" "httpfoo/bar" = "/?url=httpfoo/bar"
    ∧ rewriteAnchorHref "http://base.example" "httpfoo/bar" = "/?url=httpfoo/bar"
    ∧ rewriteFormAction "http://base.example" "httpfoo/bar" ≠
        "/?url=" ++ makeAbsoluteURL "http://base.example" "httpfoo/bar" := by
  refine ⟨?_, ?_, by decide, by decide, by decide⟩
  · intro h
    have hj : goStartsWith v "javascript:" = false :=
      goStartsWith_ne_head v "http" "javascript:" rfl rfl (by decide) h
    have hh : goStartsWith v "#" = false :=
      goStartsWith_ne_head v "http" "#" rfl rfl (by decide) h
    constructor
    · unfold rewriteFormAction
      simp [h]
    · unfold rewriteAnchorHref
      simp [hj, hh, h]
  · intro h
    unfold rewriteFormAction
    simp [h]

/-- Witness for C10 at a value beginning with `"http"` that is not a valid
absolute URL, and at one not beginning with `"http"`. -/
theorem c10_http_classification_witness :
    rewriteFormAction "http://b.example" "httpfoo/bar" = "/?url=" ++ "httpfoo/bar"
    ∧ rewriteFormAction "http://b.example" "foo" =
        "/?url=" ++ makeAbsoluteURL "http://b.example" "foo" :=
  ⟨((c10_http_classification "http://b.example" "httpfoo/bar").1 (by decide)).1,
   (c10_http_classification "http://b.example" "foo").2.1 (by decide)⟩

/-- Claim C8: with accounting disabled, a record call leaves the request
counter, the byte counter and the request log unchanged and returns before
acquiring the accounting lock. -/
theorem c8_accounting_disabled (ds : DebugStats) (e : RequestLogEntry)
    (h : ds.enabled = false) :
    logRequest ds e = (ds, false)
    ∧ (logRequest ds e).1.requestCount = ds.requestCount
    ∧ (logRequest ds e).1.bytesProcessed = ds.bytesProcessed
    ∧ (logRequest ds e).1.requestLog = ds.requestLog := by
  have h0 : logRequest ds e = (ds, false) := by
    unfold logRequest
    simp [h]
  exact ⟨h0, by rw [h0], by rw [h0], by rw [h0]⟩

/-- Witness for C8 at the initial (disabled) stats value. -/
theorem c8_accounting_disabled_witness :
    logRequest initStats (sampleEntry 0) = (initStats, false) :=
  (c8_accounting_disabled initStats (sampleEntry 0) rfl).1

/-- Claim C7: with accounting enabled, each record call increments the
request counter by one and adds the entry's size to the byte counter;
after recording N entries from the enabled initial state the counter is N,
the byte counter is the sum of sizes, and the stats snapshot slice returns
exactly the min(N, 10) most recent log entries, clamping when the log holds
fewer than 10. -/
theorem c7_accounting_enabled (entries : List RequestLogEntry) (ds : DebugStats)
    (e : RequestLogEntry) (h : ds.enabled = true) :
    ((logRequest ds e).1.requestCount = ds.requestCount + 1
      ∧ (logRequest ds e).1.bytesProcessed = ds.bytesProcessed + e.size
      ∧ (logRequest ds e).1.requestLog = ds.requestLog ++ [e])
    ∧ (recordAll enabledStats entries).requestCount = entries.length
    ∧ (recordAll enabledStats entries).bytesProcessed =
        (entries.map (fun x => x.size)).sum
    ∧ lastRequests (recordAll enabledStats entries) = entries.drop (entries.length - 10)
    ∧ (lastRequests (recordAll enabledStats entries)).length = min entries.length 10 := by
  have hr := recordAll_spec entries enabledStats rfl
  have hlast : lastRequests (recordAll enabledStats entries) =
      entries.drop (entries.length - 10) := by
    rw [hr]
    unfold lastRequests
    simp [enabledStats, initStats, goMax_toNat]
  refine ⟨?_, ?_, ?_, hlast, ?_⟩
  · unfold logRequest
    simp [h]
  · rw [hr]
    simp [enabledStats, initStats]
  · rw [hr]
    simp [enabledStats, initStats]

  · rw [hlast]
    simp only [List.length_drop]
    omega

/-- Witness for C7 on a concrete three-entry log. -/
theorem c7_accounting_enabled_witness :
    (recordAll enabledStats sampleEntries).requestCount = 3
    ∧ (recordAll enabledStats sampleEntries).bytesProcessed = 9
    ∧ lastRequests (recordAll enabledStats sampleEntries) = sampleEntries
    ∧ (lastRequests (recordAll enabledStats sampleEntries)).length = 3 := by
  have h := c7_accounting_enabled sampleEntries enabledStats (sampleEntry 0) rfl
  refine ⟨?_, ?_, ?_, ?_⟩
  · rw [h.2.1]
    decide
  · rw [h.2.2.1]
    decide
  · rw [h.2.2.2.1]
    decide
  · rw [h.2.2.2.2]
    decide

/-- Claim C5: the video id of `watch?v=` URLs is the segment after
`watch?v=` terminated at the next `&`; the id of short-link URLs is the
segment after `youtu.be/`; any URL matching neither pattern yields the
empty identifier, and the handler then falls through to the generic
rewrite path. -/
theorem c5_video_id (url : String)
    (h1 : strContains url "youtube.com/watch?v=" = false)
    (h2 : strContains url "youtu.be/" = false) :
    extractVideoID "https://www.youtube.com/watch?v=ABC123&t=5" = "ABC123"
    ∧ extractVideoID "https://youtu.be/XYZ789" = "XYZ789"
    ∧ extractVideoID url = ""
    ∧ handleTarget url = PageResponse.genericRewrite := by
  have h3 : extractVideoID url = "" := by
    unfold extractVideoID
    simp [h1, h2]
  refine ⟨by decide, by decide, h3, ?_⟩
  unfold handleTarget
  split
  · simp [h3]
  · rfl

/-- Witness for C5 at a URL matching neither video pattern. -/
theorem c5_video_id_witness :
    extractVideoID "https://www.youtube.com/watch?v=ABC123&t=5" = "ABC123"
    ∧ extractVideoID "https://example.org/page" = ""
    ∧ handleTarget "https://example.org/page" = PageResponse.genericRewrite := by
  have h := c5_video_id "https://example.org/page" (by decide) (by decide)
  exact ⟨h.1, h.2.2.1, h.2.2.2⟩

/-- Claim C4: when the minifier rejects its input, the fetch-and-minify
step returns the original fetched text unchanged and reports no error to
its caller. -/
theorem c4_minifier_fallback (fetchBody minifier : String → Except String String)
    (url content err : String) :
    (minifier content = Except.error err →
        minifyBestEffort minifier content = Except.ok content)
    ∧ (fetchBody url = Except.ok content → minifier content = Except.error err →
        fetchAndMinifyModel fetchBody minifier url = Except.ok content) := by
  constructor
  · intro hm
    unfold minifyBestEffort
    rw [hm]
  · intro hf hm
    have hred : fetchAndMinifyModel fetchBody minifier url =
        minifyBestEffort minifier content := by
      unfold fetchAndMinifyModel
      rw [hf]
    rw [hred]
    unfold minifyBestEffort
    rw [hm]

/-- Witness for C4 with a concrete rejecting minifier. -/
theorem c4_minifier_fallback_witness :
    minifyBestEffort (fun _ => Except.error "syntax error") "@bad css" =
      Except.ok "@bad css"
    ∧ fetchAndMinifyModel (fun _ => Except.ok "@bad css")
        (fun _ => Except.error "syntax error") "http://s.example/a.css" =
      Except.ok "@bad css" := by
  have h := c4_minifier_fallback (fun _ => Except.ok "@bad css")
    (fun _ => Except.error "syntax error") "http://s.example/a.css" "@bad css" "syntax error"
  exact ⟨h.1 rfl, h.2 rfl rfl⟩

/-- Claim C9 (spec-modelled): the frame-ability oracle returns false exactly
when the framing-control header value is `deny` or `sameorigin` compared
case-insensitively, returns true for any other value or an absent header,
and propagates a network failure as an error. -/
theorem c9_frameability (v msg : String) :
    (canEmbed (ProbeResult.response (some v)) = Except.ok false ↔
        (strLower v = "deny" ∨ strLower v = "sameorigin"))
    ∧ (strLower v ≠ "deny" → strLower v ≠ "sameorigin" →
        canEmbed (ProbeResult.response (some v)) = Except.ok true)
    ∧ canEmbed (ProbeResult.response none) = Except.ok true
    ∧ canEmbed (ProbeResult.networkFailure msg) = Except.error msg := by
  refine ⟨?_, ?_, rfl, rfl⟩
  · have hc : canEmbed (ProbeResult.response (some v)) =
        Except.ok (!(strLower v == "deny" || strLower v == "sameorigin")) := rfl
    rw [hc]
    constructor
    · intro h
      have hb := Except.ok.inj h
      have hx : (strLower v == "deny" || strLower v == "sameorigin") = true := by
        cases hy : (strLower v == "deny" || strLower v == "sameorigin") with
        | true => rfl
        | false => rw [hy] at hb; simp at hb
      simpa using hx
    · intro h
      have hx : (strLower v == "deny" || strLower v == "sameorigin") = true := by
        rcases h with h | h <;> simp [h]
      rw [hx]
      rfl
  · intro h1 h2
    have hc : canEmbed (ProbeResult.response (some v)) =
        Except.ok (!(strLower v == "deny" || strLower v == "sameorigin")) := rfl
    rw [hc]
    have hd : (strLower v == "deny") = false := by
      cases hx : (strLower v == "deny") with
      | false => rfl
      | true => exact absurd (by simpa using hx) h1
    have hs : (strLower v == "sameorigin") = false := by
      cases hx : (strLower v == "sameorigin") with
      | false => rfl
      | true => exact absurd (by simpa using hx) h2
    rw [hd, hs]
    rfl

/-- Witness for C9 at a concrete upper-cased deny header and a permissive
header value. -/
theorem c9_frameability_witness :
    canEmbed (ProbeResult.response (some "DENY")) = Except.ok false
    ∧ canEmbed (ProbeResult.response (some "ALLOWALL")) = Except.ok true :=
  ⟨(c9_frameability "DENY" "").1.mpr (Or.inl (by decide)),
   (c9_frameability "ALLOWALL" "").2.1 (by decide) (by decide)⟩

/-- Claim C3 counterexample: the script allow-listing is not a host match.
The src `http://evil.example/youtube.com.js` is hosted on `evil.example`,
which is not the allow-listed domain, yet — with a fetch that would
succeed — the script is left external with its src intact instead of being
inlined, because `"youtube.com"` occurs as a substring of the path. -/
theorem c3_script_counterexample :
    hostOf "http://evil.example/youtube.com.js" = "evil.example"
    ∧ allowHost "evil.example" = false
    ∧ strContains "http://evil.example/youtube.com.js" "youtube.com" = true
    ∧ processScriptSrcEl "http://base.example" (fun _ => Except.ok "MINIFIED")
        ⟨some "http://evil.example/youtube.com.js", ""⟩ =
        ⟨some "http://evil.example/youtube.com.js", ""⟩ := by
  refine ⟨by decide, by decide, by decide, by decide⟩

/-- Claim C3 as amended: the external-script carve-out tests whether the
src CONTAINS the allow-listed domain name as a substring (not whether its
host matches); exactly the matching srcs are rewritten to absolute and
left external, other srcs are inlined on successful fetch (src removed,
text set to the minified body) and left unchanged on fetch failure; inline
scripts containing either player-widget marker are left untouched and all
other inline scripts take the minifier's output on success. -/
theorem c3_script_amended (baseURL : String) (fm mn : String → Except String String)
    (src txt body minTxt errMsg : String) :
    (strContains src "youtube.com" = true →
        processScriptSrcEl baseURL fm ⟨some src, txt⟩ =
          ⟨some (makeAbsoluteURL baseURL src), txt⟩)
    ∧ (strContains src "youtube.com" = false →
        fm (makeAbsoluteURL baseURL src) = Except.ok body →
        processScriptSrcEl baseURL fm ⟨some src, txt⟩ = ⟨none, body⟩)
    ∧ (strContains src "youtube.com" = false →
        fm (makeAbsoluteURL baseURL src) = Except.error errMsg →
        processScriptSrcEl baseURL fm ⟨some src, txt⟩ = ⟨some src, txt⟩)
    ∧ ((strContains txt "youtube.com" = true ∨ strContains txt "YT.Player" = true) →
        processInlineScriptEl mn ⟨none, txt⟩ = ⟨none, txt⟩)
    ∧ (strContains txt "youtube.com" = false → strContains txt "YT.Player" = false →
        mn txt = Except.ok minTxt →
        processInlineScriptEl mn ⟨none, txt⟩ = ⟨none, minTxt⟩) := by
  refine ⟨?_, ?_, ?_, ?_, ?_⟩
  · intro h
    unfold processScriptSrcEl
    simp [h]
  · intro h hf
    unfold processScriptSrcEl
    simp [h, hf]
  · intro h hf
    unfold processScriptSrcEl
    simp [h, hf]
  · intro h
    unfold processInlineScriptEl
    rcases h with h | h <;> simp [h]
  · intro h1 h2 hm
    unfold processInlineScriptEl
    simp [h1, h2, hm]

/-- Witness for C3 (amended) on a concrete allow-listed src, a concrete
inlined src and a concrete minified inline script. -/
theorem c3_script_amended_witness :
    processScriptSrcEl "http://b.example" (fun _ => Except.ok "MIN")
        ⟨some "https://www.youtube.com/iframe_api", "t"⟩ =
      ⟨some (makeAbsoluteURL "http://b.example" "https://www.youtube.com/iframe_api"), "t"⟩
    ∧ processScriptSrcEl "http://b.example" (fun _ => Except.ok "MIN")
        ⟨some "/app.js", "t"⟩ = ⟨none, "MIN"⟩
    ∧ processInlineScriptEl (fun _ => Except.ok "m") ⟨none, "var x = 1;"⟩ =
        ⟨none, "m"⟩ := by
  have h1 := c3_script_amended "http://b.example" (fun _ => Except.ok "MIN")
    (fun _ => Except.ok "m") "https://www.youtube.com/iframe_api" "t" "MIN" "m" "e"
  have h2 := c3_script_amended "http://b.example" (fun _ => Except.ok "MIN")
    (fun _ => Except.ok "m") "/app.js" "var x = 1;" "MIN" "m" "e"
  exact ⟨h1.1 (by decide), h2.2.1 (by decide) rfl,
    h2.2.2.2.2 (by decide) (by decide) rfl⟩

/-- Claim C6 counterexample: the iframe allow-listing is not a host match.
The src `http://evil.example/clip/youtu.be` is hosted on `evil.example`,
not on the allow-listed video host, yet the iframe keeps its src and gains
both forced attributes instead of being made absolute with no attribute
changes, because `"youtu.be"` occurs as a substring of the path. -/
theorem c6_iframe_counterexample :
    hostOf "http://evil.example/clip/youtu.be" = "evil.example"
    ∧ allowHost "evil.example" = false
    ∧ processIframeEl "http://base.example"
        ⟨"http://evil.example/clip/youtu.be", none, none⟩ =
        ⟨"http://evil.example/clip/youtu.be", some "true", some allowFixed⟩
    ∧ (processIframeEl "http://base.example"
        ⟨"http://evil.example/clip/youtu.be", none, none⟩).allow ≠ none := by
  refine ⟨by decide, by decide, by decide, by decide⟩

/-- Claim C6 as amended: an iframe whose src CONTAINS `"youtube.com"` or
`"youtu.be"` as a substring (which includes every src on the allow-listed
video host) keeps its src unchanged and gains `allowfullscreen="true"` and
the exact fixed allow string; an iframe whose src contains neither
substring has its src made absolute via the resolver and gains no new
attributes. -/
theorem c6_iframe_amended (baseURL : String) (el : IframeEl) :
    ((strContains el.src "youtube.com" = true ∨ strContains el.src "youtu.be" = true) →
        processIframeEl baseURL el =
          { el with allowfullscreen := some "true", allow := some allowFixed })
    ∧ (strContains el.src "youtube.com" = false → strContains el.src "youtu.be" = false →
        processIframeEl baseURL el = { el with src := makeAbsoluteURL baseURL el.src }) := by
  constructor
  · intro h
    unfold processIframeEl
    rcases h with h | h <;> simp [h]
  · intro h1 h2
    unfold processIframeEl
    simp [h1, h2]

/-- Witness for C6 (amended) on a concrete embed iframe and a concrete
external iframe. -/
theorem c6_iframe_amended_witness :
    processIframeEl "http://b.example"
        ⟨"https://www.youtube.com/embed/ABC", none, none⟩ =
      ⟨"https://www.youtube.com/embed/ABC", some "true", some allowFixed⟩
    ∧ processIframeEl "http://b.example" ⟨"/frame.html", none, some "x"⟩ =
      ⟨makeAbsoluteURL "http://b.example" "/frame.html", none, some "x"⟩ := by
  have h1 := c6_iframe_amended "http://b.example"
    ⟨"https://www.youtube.com/embed/ABC", none, none⟩
  have h2 := c6_iframe_amended "http://b.example" ⟨"/frame.html", none, some "x"⟩
  exact ⟨h1.1 (Or.inl (by decide)), h2.2 (by decide) (by decide)⟩

/-- Claim C2 counterexample: the resolver does NOT produce exactly one
separating slash regardless of how many trailing slashes the base carries.
Go's `TrimSuffix` strips at most one slash, so for base `http://a//` and
relative ref `b` the result is `http://a//b`, with two slashes between the
fully stripped base and the ref, differing from the claim's one-slash
join. -/
theorem c2_resolver_counterexample :
    makeAbsoluteURL "http://a//" "b" = "http://a//b"
    ∧ specOneSlashJoin "http://a//" "b" = "http://a/b"
    ∧ makeAbsoluteURL "http://a//" "b" ≠ specOneSlashJoin "http://a//" "b" := by
  refine ⟨by decide, by decide, by decide⟩

/-- Claim C2 as amended: absolute refs are returned unchanged for any base;
a relative ref is joined as base-with-at-most-one-trailing-slash-removed,
one slash, ref-with-at-most-one-leading-slash-removed, so the result starts
with the trimmed base, and the separating slash is exactly one precisely
when the base carries at most one trailing slash and the ref at most one
leading slash. -/
theorem c2_resolver_amended (base ref : String) :
    ((goStartsWith ref "http://" = true ∨ goStartsWith ref "https://" = true) →
        makeAbsoluteURL base ref = ref)
    ∧ (goStartsWith ref "http://" = false → goStartsWith ref "https://" = false →
        makeAbsoluteURL base ref =
            goTrimTrailing base "/" ++ "/" ++ goTrimLeading ref "/"
        ∧ goStartsWith (makeAbsoluteURL base ref) (goTrimTrailing base "/") = true
        ∧ (goEndsWith (goTrimTrailing base "/") "/" = false →
            goStartsWith (goTrimLeading ref "/") "/" = false →
            makeAbsoluteURL base ref = specOneSlashJoin base ref)) := by
  constructor
  · intro h
    unfold makeAbsoluteURL
    rcases h with h | h <;> simp [h]
  · intro h1 h2
    have hdef : makeAbsoluteURL base ref =
        goTrimTrailing base "/" ++ "/" ++ goTrimLeading ref "/" := by
      unfold makeAbsoluteURL
      simp [h1, h2]
    refine ⟨hdef, ?_, ?_⟩
    · rw [hdef]
      unfold goStartsWith
      have hx : (goTrimTrailing base "/" ++ "/" ++ goTrimLeading ref "/").data =
          (goTrimTrailing base "/").data ++ ('/' :: (goTrimLeading ref "/").data) := by
        rw [data_append, data_append]
        simp
      rw [hx]
      exact startsWithL_self_append _ _
    · intro h3 h4
      rw [hdef]
      apply string_eq_of_data
      rw [data_append, data_append]
      rw [trimTrailingAll base h3, trimLeadingAll ref h4]
      show _ = (base.data.reverse.dropWhile (fun c => c == '/')).reverse ++
          '/' :: ref.data.dropWhile (fun c => c == '/')
      simp

/-- Witness for C2 (amended) on a concrete absolute ref and a concrete
single-slash join. -/
theorem c2_resolver_amended_witness :
    makeAbsoluteURL "http://a" "http://x/y" = "http://x/y"
    ∧ makeAbsoluteURL "http://a/" "/b" = specOneSlashJoin "http://a/" "/b" := by
  have ha := c2_resolver_amended "http://a" "http://x/y"
  have hb := c2_resolver_amended "http://a/" "/b"
  exact ⟨ha.1 (Or.inl (by decide)),
    ((hb.2 (by decide) (by decide)).2.2 (by decide) (by decide))⟩
